import Mathlib

/-!
# Algernon `keyvalue.go`: the Lua binding of `simpleredis.KeyValue`

A shallow embedding of `keyvalue.go` (package `main` of Algernon).  The file
binds a Redis-backed key/value collection into a gopher-lua runtime: a
constructor `KeyValue(name [, dbindex])` and the methods `set`, `get`, `del`,
`remove` and `__tostring`.

What is external to `keyvalue.go` is modelled as follows.

* gopher-lua (`lua.LState`, `lua.LValue`, …): the handful of API functions the
  file calls (`Get`, `GetTop`, `Push`, `ToString`, `ToInt`, `CheckUserData`,
  `ArgError`, `NewUserData`, `SetMetatable`, `NewTypeMetatable`, …) are
  written out after their Go definitions.  A Lua number is a `float64`; its
  conversions are taken as a parameter (`NumberOps`).
* simpleredis (`KeyValue`): the struct and its two local operations
  (`NewKeyValue`, `SelectDatabase`) are written out; the four operations that
  talk to Redis (`Set`, `Get`, `Del`, `Remove`) are taken as a parameter
  (`Native`), a state-passing interface over the remote store.
* A Lua error (a Go panic unwinding the current call) is the `raised` outcome
  of `CallResult`; it carries the runtime state at the point of the raise.
-/

namespace Algernon

/-! ## External types -/

/-- Go `error` values: only the message `Error()` returns is observable. -/
structure GoError where
  msg : String
  deriving DecidableEq, Repr

/-- The `*simpleredis.ConnectionPool` a collection is bound to (an identity only). -/
structure ConnectionPool where
  addr : Nat
  deriving DecidableEq, Repr

/-- The struct `simpleredis.KeyValue` (`redisDatastructure`): pool, id, dbindex. -/
structure KeyValue where
  pool : ConnectionPool
  id : String
  dbindex : Int
  deriving DecidableEq, Repr

/-- Go `simpleredis.NewKeyValue(pool, id)`: `&KeyValue{pool, id, 0}`. -/
def NewKeyValue (pool : ConnectionPool) (id : String) : KeyValue :=
  { pool := pool, id := id, dbindex := 0 }

/-- Go `(*KeyValue).SelectDatabase(dbindex)`: `rkv.dbindex = dbindex`. -/
def KeyValue.SelectDatabase (kv : KeyValue) (dbindex : Int) : KeyValue :=
  { kv with dbindex := dbindex }

/-- One call of a Redis-touching method of `simpleredis.KeyValue`. -/
inductive NativeCall where
  | set (kv : KeyValue) (key value : String)
  | get (kv : KeyValue) (key : String)
  | del (kv : KeyValue) (key : String)
  | remove (kv : KeyValue)
  deriving DecidableEq, Repr

/-- The four Redis-touching methods of `simpleredis.KeyValue`, as functions of
the remote store's state `σ`.  `none` is Go's `nil` error. -/
structure Native (σ : Type) where
  Set : KeyValue → String → String → σ → Option GoError × σ
  Get : KeyValue → String → σ → (String × Option GoError) × σ
  Del : KeyValue → String → σ → Option GoError × σ
  Remove : KeyValue → σ → Option GoError × σ

/-- The conversions of a Lua number (`lua.LNumber`, a `float64`) that the
binding relies on. -/
structure NumberOps (F : Type) where
  /-- Go conversion `int(lv)` on an `LNumber`. -/
  toInt : F → Int
  /-- Go `LNumber.String()`. -/
  toStr : F → String
  /-- gopher-lua `parseNumber`; `none` when it returns an error. -/
  parse : String → Option F
  /-- Go constant conversion `lua.LNumber(k)`. -/
  ofInt : Int → F

/-- The `permissions.UserState` the embedding host passes in: its `Pool()` and
`DatabaseIndex()`. -/
structure UserState where
  pool : ConnectionPool
  dbindex : Int
  deriving DecidableEq, Repr

def UserState.Pool (u : UserState) : ConnectionPool := u.pool

def UserState.DatabaseIndex (u : UserState) : Int := u.dbindex

/-! ## Lua values -/

/-- The Go functions that `keyvalue.go` hands to the Lua runtime
(`lua.LGFunction`). -/
inductive GoFunc where
  | kvToString
  | kvSet
  | kvGet
  | kvDel
  | kvRemove
  /-- The constructor closure of `exportKeyValue`; it captures `pool` and `dbindex`. -/
  | keyValueCtor (pool : ConnectionPool) (dbindex : Int)
  deriving DecidableEq, Repr

/-- A reference to a Lua table: a type metatable of the registry, by its type
name, or any other table. -/
inductive TableRef where
  | typeMeta (typ : String)
  | other (id : Nat)
  deriving DecidableEq, Repr

/-- The Go value stored in `LUserData.Value` (an `interface{}`): `nil`, a
`*simpleredis.KeyValue`, or a value of some other Go type. -/
inductive UDValue where
  | nil
  | keyValue (kv : KeyValue)
  | other (goType : String)
  deriving DecidableEq, Repr

/-- Go `lua.LUserData`: `Value` and `Metatable` (`none` is `LNil`). -/
structure LUserData where
  Value : UDValue
  Metatable : Option TableRef
  deriving DecidableEq, Repr

/-- Go `lua.LValue`.  `function` is a function value made from one of the Go
functions of `keyvalue.go`; `closure` is any other function value. -/
inductive LValue (F : Type) where
  | nil
  | bool (b : Bool)
  | number (n : F)
  | string (s : String)
  | table (t : TableRef)
  | function (f : GoFunc)
  | closure (id : Nat)
  | userdata (ud : LUserData)
  deriving DecidableEq, Repr

/-- Go `LValue.Type().String()`. -/
def LValue.typeName {F : Type} : LValue F → String
  | .nil => "nil"
  | .bool _ => "boolean"
  | .number _ => "number"
  | .string _ => "string"
  | .table _ => "table"
  | .function _ => "function"
  | .closure _ => "function"
  | .userdata _ => "userdata"

/-- A Lua error raised by the runtime (`RaiseError`).  `badArgument n detail`
is the error `ArgError(n, detail)` raises: "bad argument #n to f (detail)". -/
inductive LuaError where
  | badArgument (n : Nat) (detail : String)
  | other (message : String)
  deriving DecidableEq, Repr

/-- The state of one Lua runtime during a call of a Go function: the call
frame's stack (the arguments, then what the function pushed), the registry's
type metatables, the globals, the remote store, and the log of native calls. -/
structure LState (F σ : Type) where
  stack : List (LValue F)
  registry : List (String × List (String × LValue F))
  globals : List (String × LValue F)
  store : σ
  calls : List NativeCall

/-- The outcome of calling a Go function from Lua: it returns, leaving its
`nret` results on top of the stack, or it raises a Lua error. -/
inductive CallResult (F σ : Type) where
  | returned (L : LState F σ) (nret : Nat)
  | raised (e : LuaError) (L : LState F σ)

/-- The runtime state a call ends in. -/
def CallResult.state {F σ : Type} : CallResult F σ → LState F σ
  | .returned L _ => L
  | .raised _ L => L

/-- The values a call hands back to the script: the top `nret` stack values,
or `none` when it raised. -/
def CallResult.values {F σ : Type} : CallResult F σ → Option (List (LValue F))
  | .returned L nret => some (L.stack.drop (L.stack.length - nret))
  | .raised _ _ => none

/-! ## gopher-lua API -/

/-- Go `L.Get(n)` for a positive index: the n-th argument, `LNil` beyond the top. -/
def LState.Get {F σ : Type} (L : LState F σ) (n : Nat) : LValue F :=
  (L.stack.get? (n - 1)).getD .nil

/-- Go `L.GetTop()`. -/
def LState.GetTop {F σ : Type} (L : LState F σ) : Nat := L.stack.length

/-- Go `L.Push(v)`. -/
def LState.Push {F σ : Type} (L : LState F σ) (v : LValue F) : LState F σ :=
  { L with stack := L.stack ++ [v] }

/-- Go `lua.LVAsString`: the string of an `LString` or `LNumber`, else `""`. -/
def LVAsString {F : Type} (ops : NumberOps F) : LValue F → String
  | .string s => s
  | .number n => ops.toStr n
  | _ => ""

/-- Go `L.ToString(n)`. -/
def LState.ToString {F σ : Type} (ops : NumberOps F) (L : LState F σ) (n : Nat) : String :=
  LVAsString ops (L.Get n)

/-- Go `L.ToInt(n)`: `int(lv)` for a number, the parsed number for a numeric
string, else 0. -/
def LState.ToInt {F σ : Type} (ops : NumberOps F) (L : LState F σ) (n : Nat) : Int :=
  match L.Get n with
  | .number f => ops.toInt f
  | .string s =>
    match ops.parse s with
    | some f => ops.toInt f
    | none => 0
  | _ => 0

/-- Go `L.ArgError(n, message)`: raises, never returns. -/
def LState.ArgError {F σ : Type} (L : LState F σ) (n : Nat) (message : String) :
    CallResult F σ :=
  .raised (.badArgument n message) L

/-- Go `L.TypeError(n, typ)`: an `ArgError` "typ expected, got <type of argument n>". -/
def LState.TypeError {F σ : Type} (L : LState F σ) (n : Nat) (typ : String) :
    CallResult F σ :=
  L.ArgError n (typ ++ " expected, got " ++ (L.Get n).typeName)

/-- Go `L.CheckUserData(n)`: the userdata at argument n, or a type error. -/
def LState.CheckUserData {F σ : Type} (L : LState F σ) (n : Nat) :
    Except (CallResult F σ) LUserData :=
  match L.Get n with
  | .userdata ud => .ok ud
  | _ => .error (L.TypeError n "userdata")

/-- Go `L.NewUserData()`: a fresh userdata, `Value` nil and `Metatable` `LNil`. -/
def NewUserData : LUserData := { Value := .nil, Metatable := none }

/-- Go `L.GetTypeMetatable(typ)`: the registry's field `typ`, `LNil` if absent. -/
def LState.GetTypeMetatable {F σ : Type} (L : LState F σ) (typ : String) : Option TableRef :=
  match L.registry.lookup typ with
  | some _ => some (.typeMeta typ)
  | none => none

/-- Go `L.SetMetatable(ud, mt)` on a userdata: `ud.Metatable = mt`. -/
def SetMetatable (ud : LUserData) (mt : Option TableRef) : LUserData :=
  { ud with Metatable := mt }

/-- One table write (`RawSetH`, `SetField`): the key's old entry is replaced. -/
def tableSet {F : Type} (t : List (String × LValue F)) (k : String) (v : LValue F) :
    List (String × LValue F) :=
  (k, v) :: t.filter (fun e => e.1 != k)

/-- Go `L.NewTypeMetatable(typ)`: the registry's table `typ`, created empty
when the registry has none. -/
def LState.NewTypeMetatable {F σ : Type} (L : LState F σ) (typ : String) :
    LState F σ × TableRef :=
  match L.registry.lookup typ with
  | some _ => (L, .typeMeta typ)
  | none =>
    let registry := (typ, []) :: L.registry
    ({ L with registry := registry }, .typeMeta typ)

/-- A write to a field of the type metatable `typ` of the registry. -/
def LState.setMetaField {F σ : Type} (L : LState F σ) (typ : String) (k : String)
    (v : LValue F) : LState F σ :=
  let registry := L.registry.map
    (fun e => if e.1 == typ then (e.1, tableSet e.2 k v) else e)
  { L with registry := registry }

/-- Go `L.SetFuncs(mt, funcs)` on the type metatable `typ`: each name is set
to the function value made from its Go function. -/
def LState.SetFuncs {F σ : Type} (L : LState F σ) (typ : String) :
    List (String × GoFunc) → LState F σ
  | [] => L
  | (name, fn) :: rest => (L.setMetaField typ name (.function fn)).SetFuncs typ rest

/-- Go `L.SetGlobal(name, v)`. -/
def LState.SetGlobal {F σ : Type} (L : LState F σ) (name : String) (v : LValue F) :
    LState F σ :=
  { L with globals := tableSet L.globals name v }

/-! ## `keyvalue.go` -/

/-- Identifier for the KeyValue class in Lua. -/
def lKeyValueClass : String := "KEYVALUE"

/-- Go `checkKeyValue`: the first argument, "self", cast from userdata to a
`*simpleredis.KeyValue`; an argument error for argument 1 otherwise. -/
def checkKeyValue {F σ : Type} (L : LState F σ) : Except (CallResult F σ) KeyValue :=
  match L.CheckUserData 1 with
  | .error r => .error r
  | .ok ud =>
    match ud.Value with
    | .keyValue kv => .ok kv
    | _ => .error (L.ArgError 1 "keyvalue expected")

/-- Go `newKeyValue`: a new KeyValue collection `id` on database `dbindex`,
boxed in a userdata with the metatable of the KEYVALUE class. -/
def newKeyValue {F σ : Type} (L : LState F σ) (pool : ConnectionPool) (id : String)
    (dbindex : Int) : Except GoError LUserData :=
  let kv := (NewKeyValue pool id).SelectDatabase dbindex
  let ud := NewUserData
  let ud := { ud with Value := .keyValue kv }
  let ud := SetMetatable ud (L.GetTypeMetatable lKeyValueClass)
  .ok ud

/-- Go `kvToString`: `tostring(kv) -> string`. -/
def kvToString {F σ : Type} (L : LState F σ) : CallResult F σ :=
  .returned (L.Push (.string "keyvalue")) 1

/-- Go `kvSet`: `kv:set(string, string) -> bool`. -/
def kvSet {F σ : Type} (ops : NumberOps F) (nat : Native σ) (L : LState F σ) :
    CallResult F σ :=
  match checkKeyValue L with
  | .error r => r
  | .ok kv =>
    let key := L.ToString ops 2
    let value := L.ToString ops 3
    let r := nat.Set kv key value L.store
    let L1 := { L with store := r.2, calls := L.calls ++ [NativeCall.set kv key value] }
    .returned (L1.Push (.bool r.1.isNone)) 1

/-- Go `kvGet`: `kv:get(string) -> string`. -/
def kvGet {F σ : Type} (ops : NumberOps F) (nat : Native σ) (L : LState F σ) :
    CallResult F σ :=
  match checkKeyValue L with
  | .error r => r
  | .ok kv =>
    let key := L.ToString ops 2
    let r := nat.Get kv key L.store
    let L1 := { L with store := r.2, calls := L.calls ++ [NativeCall.get kv key] }
    let retval := if r.1.2.isSome then "" else r.1.1
    .returned (L1.Push (.string retval)) 1

/-- Go `kvDel`: `kv:del(string) -> bool`. -/
def kvDel {F σ : Type} (ops : NumberOps F) (nat : Native σ) (L : LState F σ) :
    CallResult F σ :=
  match checkKeyValue L with
  | .error r => r
  | .ok kv =>
    let value := L.ToString ops 2
    let r := nat.Del kv value L.store
    let L1 := { L with store := r.2, calls := L.calls ++ [NativeCall.del kv value] }
    .returned (L1.Push (.bool r.1.isNone)) 1

/-- Go `kvRemove`: `kv:remove() -> bool`. -/
def kvRemove {F σ : Type} (nat : Native σ) (L : LState F σ) : CallResult F σ :=
  match checkKeyValue L with
  | .error r => r
  | .ok kv =>
    let r := nat.Remove kv L.store
    let L1 := { L with store := r.2, calls := L.calls ++ [NativeCall.remove kv] }
    .returned (L1.Push (.bool r.1.isNone)) 1

/-- Go `kvMethods`: the keyvalue methods that are registered. -/
def kvMethods : List (String × GoFunc) :=
  [("__tostring", .kvToString),
   ("set", .kvSet),
   ("get", .kvGet),
   ("del", .kvDel),
   ("remove", .kvRemove)]

/-- The constructor closure of `exportKeyValue`: `KeyValue(name [, dbindex])`.
`pool` and `dbindex` are the variables of `exportKeyValue` it captures. -/
def keyValueCtor {F σ : Type} (ops : NumberOps F) (pool : ConnectionPool) (dbindex : Int)
    (L : LState F σ) : CallResult F σ :=
  let name := L.ToString ops 1
  let localDBIndex := if L.GetTop = 2 then L.ToInt ops 2 else dbindex
  match newKeyValue L pool name localDBIndex with
  | .error err =>
    .returned (((L.Push .nil).Push (.string err.msg)).Push (.number (ops.ofInt 1))) 3
  | .ok userdata => .returned (L.Push (.userdata userdata)) 1

/-- A call of one of the Go functions of `keyvalue.go` by the Lua runtime. -/
def GoFunc.call {F σ : Type} (ops : NumberOps F) (nat : Native σ) :
    GoFunc → LState F σ → CallResult F σ
  | .kvToString, L => Algernon.kvToString L
  | .kvSet, L => Algernon.kvSet ops nat L
  | .kvGet, L => Algernon.kvGet ops nat L
  | .kvDel, L => Algernon.kvDel ops nat L
  | .kvRemove, L => Algernon.kvRemove nat L
  | .keyValueCtor pool dbindex, L => Algernon.keyValueCtor ops pool dbindex L

/-- Go `exportKeyValue`: registers the KEYVALUE class with its methods and
installs the global constructor `KeyValue`. -/
def exportKeyValue {F σ : Type} (L : LState F σ) (userstate : UserState) : LState F σ :=
  let pool := userstate.Pool
  let dbindex := userstate.DatabaseIndex
  let L1 := (L.NewTypeMetatable lKeyValueClass).1
  let L2 := L1.setMetaField lKeyValueClass "__index" (.table (.typeMeta lKeyValueClass))
  let L3 := L2.SetFuncs lKeyValueClass kvMethods
  L3.SetGlobal "KeyValue" (.function (.keyValueCtor pool dbindex))

/-! ## Vocabulary of the statements -/

/-- A handle: a userdata whose payload is a `*simpleredis.KeyValue`. -/
def LValue.isHandle {F : Type} : LValue F → Bool
  | .userdata ud =>
    match ud.Value with
    | .keyValue _ => true
    | _ => false
  | _ => false

/-- The native collection a handle carries. -/
def LValue.handleOf {F : Type} : LValue F → Option KeyValue
  | .userdata ud =>
    match ud.Value with
    | .keyValue kv => some kv
    | _ => none
  | _ => none

/-- The runtime state at the entry of a call with arguments `args`: a new
call frame; registry, globals, store and call log are kept. -/
def LState.frame {F σ : Type} (L : LState F σ) (args : List (LValue F)) : LState F σ :=
  { L with stack := args }

/-- The store reports key `key` of `kv` as absent in state `s`: native `Get`
gives an error, or an empty value. -/
def reportsAbsent {σ : Type} (nat : Native σ) (kv : KeyValue) (key : String) (s : σ) : Prop :=
  (nat.Get kv key s).1.2 ≠ none ∨ (nat.Get kv key s).1.1 = ""

/-! ## Instances used to evaluate the binding on examples -/

/-- Number conversions over integral numbers. -/
def intOps : NumberOps Int where
  toInt := fun n => n
  toStr := fun n => toString n
  parse := fun s => s.toInt?
  ofInt := fun k => k

/-- An in-memory store: the bindings `((collection id, dbindex), key) ↦ value`. -/
abbrev MemStore := List ((String × Int) × String × String)

/-- The entry of key `k` of collection `kv` in an in-memory store. -/
def MemStore.find (s : MemStore) (kv : KeyValue) (k : String) : Option String :=
  match s.find? (fun e => e.1 == (kv.id, kv.dbindex) && e.2.1 == k) with
  | some e => some e.2.2
  | none => none

/-- The in-memory store without key `k` of collection `kv`. -/
def MemStore.drop (s : MemStore) (kv : KeyValue) (k : String) : MemStore :=
  s.filter (fun e => !(e.1 == (kv.id, kv.dbindex) && e.2.1 == k))

/-- Native operations over the in-memory store: `Set` binds, `Get` reports a
missing key by an error, `Del` unbinds, `Remove` unbinds every key of the
collection. -/
def memNative : Native MemStore where
  Set := fun kv k v s => (none, ((kv.id, kv.dbindex), k, v) :: s.drop kv k)
  Get := fun kv k s =>
    match s.find kv k with
    | some v => ((v, none), s)
    | none => (("", some { msg := "redigo: nil returned" }), s)
  Del := fun kv k s => (none, s.drop kv k)
  Remove := fun kv s => (none, s.filter (fun e => !(e.1 == (kv.id, kv.dbindex))))

/-- Native operations of an unreachable store: every call reports an error,
`Get` together with a left-over value. -/
def downNative : Native MemStore where
  Set := fun _ _ _ s => (some { msg := "dial tcp: connection refused" }, s)
  Get := fun _ _ s => (("stale", some { msg := "dial tcp: connection refused" }), s)
  Del := fun _ _ s => (some { msg := "dial tcp: connection refused" }, s)
  Remove := fun _ s => (some { msg := "dial tcp: connection refused" }, s)

/-- A runtime state with the given call arguments and nothing else. -/
def freshState (args : List (LValue Int)) : LState Int MemStore :=
  { stack := args, registry := [], globals := [], store := [], calls := [] }

/-- The host's user state of the examples: pool 7, default database index 5. -/
def hostState : UserState := { pool := { addr := 7 }, dbindex := 5 }

/-- The runtime after `exportKeyValue` with `hostState`, at the entry of a
call with arguments `args`. -/
def readyState (args : List (LValue Int)) : LState Int MemStore :=
  (exportKeyValue (freshState []) hostState).frame args

/-- The handle of collection `id` on database `dbindex` of pool 7, as
`newKeyValue` builds it once the KEYVALUE class is registered. -/
def handle (id : String) (dbindex : Int) : LValue Int :=
  .userdata
    { Value := .keyValue { pool := { addr := 7 }, id := id, dbindex := dbindex }
      Metatable := some (.typeMeta lKeyValueClass) }

/-- The collection "mycoll" on database 5 of pool 7. -/
def mycoll : KeyValue := { pool := { addr := 7 }, id := "mycoll", dbindex := 5 }

/-- The entry of the call `kv:set("k", "v")` on the handle of `mycoll`. -/
def setCall : LState Int MemStore :=
  readyState [handle "mycoll" 5, .string "k", .string "v"]

/-- The entry of the call `kv:get("k")` on the handle of `mycoll`. -/
def getCall : LState Int MemStore :=
  readyState [handle "mycoll" 5, .string "k"]

/-! ## Lemmas on the runtime and on `checkKeyValue` -/

theorem values_push_one {F σ : Type} (L : LState F σ) (v : LValue F) :
    (CallResult.returned (L.Push v) 1).values = some [v] := by
  simp [CallResult.values, LState.Push]

theorem checkKeyValue_of_handle {F σ : Type} (L : LState F σ) (kv : KeyValue)
    (h : (L.Get 1).handleOf = some kv) : checkKeyValue L = .ok kv := by
  unfold checkKeyValue LState.CheckUserData
  cases hv : L.Get 1 with
  | userdata ud =>
    rw [hv] at h
    cases hp : ud.Value <;> simp_all [LValue.handleOf]
  | _ => rw [hv] at h; simp [LValue.handleOf] at h

theorem checkKeyValue_of_not_handle {F σ : Type} (L : LState F σ)
    (h : (L.Get 1).isHandle = false) :
    ∃ detail, checkKeyValue L = .error (.raised (.badArgument 1 detail) L) := by
  unfold checkKeyValue LState.CheckUserData
  cases hv : L.Get 1 with
  | userdata ud =>
    rw [hv] at h
    cases hp : ud.Value with
    | keyValue kv => simp [LValue.isHandle, hp] at h
    | _ => exact ⟨"keyvalue expected", by simp [LState.ArgError, hp]⟩
  | _ => exact ⟨_, by simp [LState.TypeError, LState.ArgError]; rfl⟩

theorem checked_call_of_not_handle {F σ : Type} (L : LState F σ)
    (body : KeyValue → CallResult F σ) (h : (L.Get 1).isHandle = false) :
    ∃ detail,
      (match checkKeyValue L with
        | .error r => r
        | .ok kv => body kv) = .raised (.badArgument 1 detail) L := by
  obtain ⟨detail, hd⟩ := checkKeyValue_of_not_handle L h
  exact ⟨detail, by rw [hd]⟩

theorem checkKeyValue_error_state {F σ : Type} (L : LState F σ) (r : CallResult F σ)
    (h : checkKeyValue L = .error r) : r.state = L := by
  unfold checkKeyValue LState.CheckUserData at h
  cases hv : L.Get 1 with
  | userdata ud =>
    rw [hv] at h
    cases hp : ud.Value <;> simp [hp, LState.ArgError] at h <;> subst h <;> rfl
  | _ =>
    rw [hv] at h
    simp [LState.TypeError, LState.ArgError] at h
    subst h
    rfl

theorem checked_call_keeps_stack {F σ : Type} (L : LState F σ)
    (body : KeyValue → CallResult F σ)
    (hb : ∀ kv, ∃ pushed, (body kv).state.stack = L.stack ++ pushed) :
    ∃ pushed,
      (match checkKeyValue L with
        | .error r => r
        | .ok kv => body kv).state.stack = L.stack ++ pushed := by
  cases hc : checkKeyValue L with
  | error r => exact ⟨[], by simp [checkKeyValue_error_state L r hc]⟩
  | ok kv => exact hb kv

theorem dispatch_keeps_stack {F σ : Type} (ops : NumberOps F) (nat : Native σ)
    (name : String) (f : GoFunc) (L : LState F σ) (hm : (name, f) ∈ kvMethods) :
    ∃ pushed, (f.call ops nat L).state.stack = L.stack ++ pushed := by
  simp only [kvMethods, List.mem_cons, Prod.mk.injEq, List.mem_singleton, List.mem_nil_iff,
    or_false] at hm
  rcases hm with ⟨_, hf⟩ | ⟨_, hf⟩ | ⟨_, hf⟩ | ⟨_, hf⟩ | ⟨_, hf⟩ <;> subst hf
  · exact ⟨_, rfl⟩
  · exact checked_call_keeps_stack L _ (fun _ => ⟨_, rfl⟩)
  · exact checked_call_keeps_stack L _ (fun _ => ⟨_, rfl⟩)
  · exact checked_call_keeps_stack L _ (fun _ => ⟨_, rfl⟩)
  · exact checked_call_keeps_stack L _ (fun _ => ⟨_, rfl⟩)

theorem lookup_map_ne_none {β : Type} (g : String × β → String × β)
    (hg : ∀ e, (g e).1 = e.1) (k : String) (reg : List (String × β))
    (h : reg.lookup k ≠ none) : (reg.map g).lookup k ≠ none := by
  induction reg with
  | nil => simp at h
  | cons e rest ih =>
    obtain ⟨a, b⟩ := e
    have hga : g (a, b) = ((g (a, b)).1, (g (a, b)).2) := rfl
    rw [List.map_cons, hga, hg (a, b)]
    simp only [List.lookup_cons] at h ⊢
    cases hk : (k == a) with
    | true => simp
    | false =>
      rw [hk] at h
      exact ih h

theorem setMetaField_registered {F σ : Type} (L : LState F σ) (typ k : String)
    (v : LValue F) (name : String) (h : L.registry.lookup name ≠ none) :
    (L.setMetaField typ k v).registry.lookup name ≠ none := by
  unfold LState.setMetaField
  apply lookup_map_ne_none _ _ name L.registry h
  intro e
  split <;> rfl

theorem SetFuncs_registered {F σ : Type} (typ : String) (funcs : List (String × GoFunc))
    (name : String) :
    ∀ L : LState F σ, L.registry.lookup name ≠ none →
      (L.SetFuncs typ funcs).registry.lookup name ≠ none := by
  induction funcs with
  | nil => intro L h; exact h
  | cons e rest ih =>
    intro L h
    obtain ⟨n, fn⟩ := e
    exact ih _ (setMetaField_registered L typ n _ name h)

theorem NewTypeMetatable_registered {F σ : Type} (L : LState F σ) (typ : String) :
    (L.NewTypeMetatable typ).1.registry.lookup typ ≠ none := by
  unfold LState.NewTypeMetatable
  cases h : L.registry.lookup typ with
  | some t => simp [h]
  | none => simp [List.lookup_cons]

theorem exportKeyValue_registers {F σ : Type} (L : LState F σ) (userstate : UserState) :
    (exportKeyValue L userstate).registry.lookup lKeyValueClass ≠ none := by
  unfold exportKeyValue LState.SetGlobal
  exact SetFuncs_registered _ _ _ _
    (setMetaField_registered _ _ _ _ _ (NewTypeMetatable_registered L lKeyValueClass))

/-! ## C1: the type check on dispatch -/

/-- C1 (the code at the failing input): after `exportKeyValue`, `__tostring`
is a method of `kvMethods` held by the metatable of the class, and called with
the number 42 as first argument, which is no handle, `kvToString` raises no
argument error: it returns the one string "keyvalue". -/
theorem kvToString_accepts_non_handle :
    ("__tostring", GoFunc.kvToString) ∈ kvMethods ∧
    ((readyState []).registry.lookup lKeyValueClass).bind
      (fun mt => mt.lookup "__tostring") = some (.function .kvToString) ∧
    ((readyState [.number 42]).Get 1).isHandle = false ∧
    (GoFunc.call intOps memNative .kvToString (readyState [.number 42])).values =
      some [.string "keyvalue"] ∧
    ¬ ∃ e L1, GoFunc.call intOps memNative .kvToString (readyState [.number 42]) =
      .raised e L1 := by
  refine ⟨by decide, by decide, by decide, by decide, ?_⟩
  rintro ⟨e, L1, h⟩
  simp [GoFunc.call, kvToString] at h

/-- What the dispatch table does on a first argument that is not a handle:
every method of `kvMethods` leaves call log and store as they were, so it
makes no native collection call; and each of `set`, `get`, `del` and `remove`
raises the argument error for positional argument 1. -/
theorem dispatch_rejects_non_handle {F σ : Type} (ops : NumberOps F) (nat : Native σ)
    (name : String) (f : GoFunc) (L : LState F σ)
    (hm : (name, f) ∈ kvMethods) (hbad : (L.Get 1).isHandle = false) :
    (f.call ops nat L).state.calls = L.calls ∧
    (f.call ops nat L).state.store = L.store ∧
    (name ≠ "__tostring" →
      ∃ detail, f.call ops nat L = .raised (.badArgument 1 detail) L) := by
  simp only [kvMethods, List.mem_cons, Prod.mk.injEq, List.mem_singleton, List.mem_nil_iff,
    or_false] at hm
  rcases hm with ⟨hn, hf⟩ | ⟨_, hf⟩ | ⟨_, hf⟩ | ⟨_, hf⟩ | ⟨_, hf⟩
  · subst hf
    exact ⟨rfl, rfl, fun hne => absurd hn hne⟩
  · subst hf
    obtain ⟨detail, hd⟩ := checked_call_of_not_handle L _ hbad
    simp only [GoFunc.call, kvSet]
    rw [hd]
    exact ⟨rfl, rfl, fun _ => ⟨detail, rfl⟩⟩
  · subst hf
    obtain ⟨detail, hd⟩ := checked_call_of_not_handle L _ hbad
    simp only [GoFunc.call, kvGet]
    rw [hd]
    exact ⟨rfl, rfl, fun _ => ⟨detail, rfl⟩⟩
  · subst hf
    obtain ⟨detail, hd⟩ := checked_call_of_not_handle L _ hbad
    simp only [GoFunc.call, kvDel]
    rw [hd]
    exact ⟨rfl, rfl, fun _ => ⟨detail, rfl⟩⟩
  · subst hf
    obtain ⟨detail, hd⟩ := checked_call_of_not_handle L _ hbad
    simp only [GoFunc.call, kvRemove]
    rw [hd]
    exact ⟨rfl, rfl, fun _ => ⟨detail, rfl⟩⟩

/-- The rejection of a non-handle, at `set` called on the number 42 over the
in-memory store. -/
theorem dispatch_rejects_non_handle_witness :
    ("set", GoFunc.kvSet) ∈ kvMethods ∧
    ((freshState [.number 42, .string "k", .string "v"]).Get 1).isHandle = false ∧
    (GoFunc.call intOps memNative .kvSet
      (freshState [.number 42, .string "k", .string "v"])).state.calls = [] ∧
    (GoFunc.call intOps memNative .kvSet
      (freshState [.number 42, .string "k", .string "v"])).state.store = [] ∧
    ("set" ≠ "__tostring" →
      ∃ detail, GoFunc.call intOps memNative .kvSet
          (freshState [.number 42, .string "k", .string "v"]) =
        .raised (.badArgument 1 detail)
          (freshState [.number 42, .string "k", .string "v"])) :=
  ⟨by decide, by decide,
    dispatch_rejects_non_handle intOps memNative "set" .kvSet
      (freshState [.number 42, .string "k", .string "v"]) (by decide) (by decide)⟩

/-! ## C2: the database index of a constructed collection -/

/-- C2 (as stated, refuted): after `exportKeyValue` with default index 5, the
call `KeyValue("mycoll", 3, "extra")` supplies the second argument 3, yet the
collection is created with index 5. -/
theorem ctor_three_arguments_uses_default :
    (readyState []).globals.lookup "KeyValue" =
      some (.function (.keyValueCtor { addr := 7 } 5)) ∧
    (readyState [.string "mycoll", .number 3, .string "extra"]).ToInt intOps 2 = 3 ∧
    (GoFunc.call intOps memNative (.keyValueCtor { addr := 7 } 5)
      (readyState [.string "mycoll", .number 3, .string "extra"])).values =
      some [handle "mycoll" 5] := by
  exact ⟨by decide, by decide, by decide⟩

/-- C2 (amended): the constructor returns one handle whose collection has the
closure's pool, the name `ToString(1)`, and as database index `ToInt(2)` when
the call has exactly two arguments, the collaborator's default index for any
other number of arguments (the name only, none, or three and more). -/
theorem ctor_database_index {F σ : Type} (ops : NumberOps F) (userstate : UserState)
    (L : LState F σ) :
    ∃ ud : LUserData,
      keyValueCtor ops userstate.Pool userstate.DatabaseIndex L =
        .returned (L.Push (.userdata ud)) 1 ∧
      ud.Value = .keyValue
        { pool := userstate.Pool
          id := L.ToString ops 1
          dbindex := if L.GetTop = 2 then L.ToInt ops 2 else userstate.DatabaseIndex } ∧
      (∀ (a : LValue F) (n : F), L.stack = [a, .number n] →
        ud.Value = .keyValue
          { pool := userstate.Pool, id := LVAsString ops a, dbindex := ops.toInt n }) ∧
      (∀ a : LValue F, L.stack = [a] →
        ud.Value = .keyValue
          { pool := userstate.Pool, id := LVAsString ops a
            dbindex := userstate.DatabaseIndex }) ∧
      (L.GetTop ≠ 2 →
        ud.Value = .keyValue
          { pool := userstate.Pool, id := L.ToString ops 1
            dbindex := userstate.DatabaseIndex }) := by
  refine ⟨_, rfl, rfl, ?_, ?_, ?_⟩
  · intro a n hs
    simp [newKeyValue, SetMetatable, NewUserData, NewKeyValue, KeyValue.SelectDatabase,
      LState.GetTop, LState.ToInt, LState.ToString, LState.Get, hs]
  · intro a hs
    simp [newKeyValue, SetMetatable, NewUserData, NewKeyValue, KeyValue.SelectDatabase,
      LState.GetTop, LState.ToString, LState.Get, hs]
  · intro hs
    simp [newKeyValue, SetMetatable, NewUserData, NewKeyValue, KeyValue.SelectDatabase, hs]

/-! ## C10: construction never fails -/

/-- C10: `newKeyValue` returns a nil error for every runtime state, pool, name
and index; so for every argument list the constructor raises nothing and
returns exactly one value, a handle, and never the failure triple. -/
theorem ctor_always_returns_handle {F σ : Type} (ops : NumberOps F) (pool : ConnectionPool)
    (dbindex : Int) (L : LState F σ) :
    (∀ (id : String) (idx : Int), ∃ ud, newKeyValue L pool id idx = .ok ud) ∧
    ∃ ud : LUserData,
      keyValueCtor ops pool dbindex L = .returned (L.Push (.userdata ud)) 1 ∧
      (keyValueCtor ops pool dbindex L).values = some [.userdata ud] ∧
      (LValue.userdata ud : LValue F).isHandle = true := by
  refine ⟨fun id idx => ⟨_, rfl⟩, _, rfl, ?_, rfl⟩
  exact values_push_one L _

/-! ## C9: the string conversion -/

/-- C9 (the code at the failing input): after `exportKeyValue`, the handle
that `KeyValue("mycoll")` returns has the collection name "mycoll", the
metatable of its class holds `kvToString` under `__tostring`, and `kvToString`
called on the handle returns "keyvalue", which is not the name. -/
theorem kvToString_is_not_the_name :
    (GoFunc.call intOps memNative (.keyValueCtor { addr := 7 } 5)
      (readyState [.string "mycoll"])).values = some [handle "mycoll" 5] ∧
    ((readyState []).registry.lookup lKeyValueClass).bind
      (fun mt => mt.lookup "__tostring") = some (.function .kvToString) ∧
    (GoFunc.call intOps memNative .kvToString (readyState [handle "mycoll" 5])).values =
      some [.string "keyvalue"] ∧
    "keyvalue" ≠ "mycoll" := by
  exact ⟨by decide, by decide, by decide, by decide⟩

/-! ## C4 and C5: how native results are returned -/

/-- C4: on a valid handle carrying collection `kv`, and for all script
arguments, `set` makes the one native call `Set(kv, ToString(2), ToString(3))`,
`del` the one call `Del(kv, ToString(2))`, `remove` the one call `Remove(kv)`;
each raises nothing and returns exactly one value, the boolean that is true
exactly when the native call reported no error.  `ToString` of a string
argument is that string. -/
theorem mutators_return_success_flag {F σ : Type} (ops : NumberOps F) (nat : Native σ)
    (L : LState F σ) (kv : KeyValue) (h : (L.Get 1).handleOf = some kv) :
    (∃ b : Bool, (kvSet ops nat L).values = some [.bool b] ∧
      (b = true ↔ (nat.Set kv (L.ToString ops 2) (L.ToString ops 3) L.store).1 = none) ∧
      (kvSet ops nat L).state.calls =
        L.calls ++ [NativeCall.set kv (L.ToString ops 2) (L.ToString ops 3)] ∧
      (kvSet ops nat L).state.store =
        (nat.Set kv (L.ToString ops 2) (L.ToString ops 3) L.store).2) ∧
    (∃ b : Bool, (kvDel ops nat L).values = some [.bool b] ∧
      (b = true ↔ (nat.Del kv (L.ToString ops 2) L.store).1 = none) ∧
      (kvDel ops nat L).state.calls = L.calls ++ [NativeCall.del kv (L.ToString ops 2)] ∧
      (kvDel ops nat L).state.store = (nat.Del kv (L.ToString ops 2) L.store).2) ∧
    (∃ b : Bool, (kvRemove nat L).values = some [.bool b] ∧
      (b = true ↔ (nat.Remove kv L.store).1 = none) ∧
      (kvRemove nat L).state.calls = L.calls ++ [NativeCall.remove kv] ∧
      (kvRemove nat L).state.store = (nat.Remove kv L.store).2) ∧
    (∀ k : String, L.Get 2 = .string k → L.ToString ops 2 = k) ∧
    (∀ v : String, L.Get 3 = .string v → L.ToString ops 3 = v) := by
  have hc := checkKeyValue_of_handle L kv h
  refine ⟨⟨_, ?_, Option.isNone_iff_eq_none, ?_, ?_⟩, ⟨_, ?_, Option.isNone_iff_eq_none, ?_, ?_⟩,
    ⟨_, ?_, Option.isNone_iff_eq_none, ?_, ?_⟩, ?_, ?_⟩
  · simp only [kvSet, hc]; exact values_push_one _ _
  · simp only [kvSet, hc]; rfl
  · simp only [kvSet, hc]; rfl
  · simp only [kvDel, hc]; exact values_push_one _ _
  · simp only [kvDel, hc]; rfl
  · simp only [kvDel, hc]; rfl
  · simp only [kvRemove, hc]; exact values_push_one _ _
  · simp only [kvRemove, hc]; rfl
  · simp only [kvRemove, hc]; rfl
  · intro k hk; simp [LState.ToString, hk, LVAsString]
  · intro v hv; simp [LState.ToString, hv, LVAsString]

/-- C5: on a valid handle carrying collection `kv`, `get` makes the one
native call `Get(kv, ToString(2))`, raises nothing and returns exactly one
string: the value native `Get` returned when it reported no error, the empty
string when it reported an error, whatever value came with it. -/
theorem get_returns_value_or_empty {F σ : Type} (ops : NumberOps F) (nat : Native σ)
    (L : LState F σ) (kv : KeyValue) (h : (L.Get 1).handleOf = some kv) :
    (∃ s : String, (kvGet ops nat L).values = some [.string s] ∧
      ((nat.Get kv (L.ToString ops 2) L.store).1.2 = none →
        s = (nat.Get kv (L.ToString ops 2) L.store).1.1) ∧
      ((nat.Get kv (L.ToString ops 2) L.store).1.2 ≠ none → s = "")) ∧
    (kvGet ops nat L).state.calls = L.calls ++ [NativeCall.get kv (L.ToString ops 2)] ∧
    (kvGet ops nat L).state.store = (nat.Get kv (L.ToString ops 2) L.store).2 ∧
    (∀ k : String, L.Get 2 = .string k → L.ToString ops 2 = k) := by
  have hc := checkKeyValue_of_handle L kv h
  refine ⟨⟨if (nat.Get kv (L.ToString ops 2) L.store).1.2.isSome then ""
      else (nat.Get kv (L.ToString ops 2) L.store).1.1, ?_, ?_, ?_⟩, ?_, ?_, ?_⟩
  · simp only [kvGet, hc]; exact values_push_one _ _
  · intro hn; simp [hn]
  · intro hn
    cases he : (nat.Get kv (L.ToString ops 2) L.store).1.2 with
    | none => exact absurd he hn
    | some e => simp
  · simp only [kvGet, hc]; rfl
  · simp only [kvGet, hc]; rfl
  · intro k hk; simp [LState.ToString, hk, LVAsString]

/-- C4, at `kv:set("k", "v")` on the handle of `mycoll` over the in-memory
store: the call returns true. -/
theorem mutators_return_success_flag_witness :
    (setCall.Get 1).handleOf = some mycoll ∧
    (kvSet intOps memNative setCall).values = some [.bool true] ∧
    ∃ b : Bool, (kvSet intOps memNative setCall).values = some [.bool b] ∧
      (b = true ↔
        (memNative.Set mycoll (setCall.ToString intOps 2) (setCall.ToString intOps 3)
          setCall.store).1 = none) ∧
      (kvSet intOps memNative setCall).state.calls =
        setCall.calls ++
          [NativeCall.set mycoll (setCall.ToString intOps 2) (setCall.ToString intOps 3)] ∧
      (kvSet intOps memNative setCall).state.store =
        (memNative.Set mycoll (setCall.ToString intOps 2) (setCall.ToString intOps 3)
          setCall.store).2 :=
  ⟨by decide, by decide,
    (mutators_return_success_flag intOps memNative setCall mycoll (by decide)).1⟩

/-- C5, at `kv:get("k")` on the handle of `mycoll` over an unreachable store:
the call returns the empty string. -/
theorem get_returns_value_or_empty_witness :
    (getCall.Get 1).handleOf = some mycoll ∧
    (kvGet intOps downNative getCall).values = some [.string ""] ∧
    ∃ s : String, (kvGet intOps downNative getCall).values = some [.string s] ∧
      ((downNative.Get mycoll (getCall.ToString intOps 2) getCall.store).1.2 = none →
        s = (downNative.Get mycoll (getCall.ToString intOps 2) getCall.store).1.1) ∧
      ((downNative.Get mycoll (getCall.ToString intOps 2) getCall.store).1.2 ≠ none →
        s = "") :=
  ⟨by decide, by decide,
    (get_returns_value_or_empty intOps downNative getCall mycoll (by decide)).1⟩

/-! ## C6 and C7: set, del and get in sequence -/

theorem kvGet_on_handle {F σ : Type} (ops : NumberOps F) (nat : Native σ)
    (L : LState F σ) (h : LValue F) (kv : KeyValue) (a : LValue F)
    (hh : h.handleOf = some kv) :
    (kvGet ops nat (L.frame [h, a])).values =
      some [.string (if (nat.Get kv (LVAsString ops a) L.store).1.2.isSome then ""
        else (nat.Get kv (LVAsString ops a) L.store).1.1)] := by
  have hc : checkKeyValue (L.frame [h, a]) = .ok kv := checkKeyValue_of_handle _ kv hh
  simp only [kvGet, hc]
  exact values_push_one _ _

theorem kvSet_on_handle {F σ : Type} (ops : NumberOps F) (nat : Native σ)
    (L : LState F σ) (h : LValue F) (kv : KeyValue) (a b : LValue F)
    (hh : h.handleOf = some kv) :
    (kvSet ops nat (L.frame [h, a, b])).values =
      some [.bool (nat.Set kv (LVAsString ops a) (LVAsString ops b) L.store).1.isNone] ∧
    (kvSet ops nat (L.frame [h, a, b])).state.store =
      (nat.Set kv (LVAsString ops a) (LVAsString ops b) L.store).2 := by
  have hc : checkKeyValue (L.frame [h, a, b]) = .ok kv := checkKeyValue_of_handle _ kv hh
  simp only [kvSet, hc]
  exact ⟨values_push_one _ _, rfl⟩

theorem kvDel_on_handle {F σ : Type} (ops : NumberOps F) (nat : Native σ)
    (L : LState F σ) (h : LValue F) (kv : KeyValue) (a : LValue F)
    (hh : h.handleOf = some kv) :
    (kvDel ops nat (L.frame [h, a])).state.store = (nat.Del kv (LVAsString ops a) L.store).2 := by
  have hc : checkKeyValue (L.frame [h, a]) = .ok kv := checkKeyValue_of_handle _ kv hh
  simp only [kvDel, hc]
  rfl

theorem get_of_reportsAbsent {F σ : Type} (ops : NumberOps F) (nat : Native σ)
    (L : LState F σ) (h : LValue F) (kv : KeyValue) (a : LValue F)
    (hh : h.handleOf = some kv) (habs : reportsAbsent nat kv (LVAsString ops a) L.store) :
    (kvGet ops nat (L.frame [h, a])).values = some [.string ""] := by
  rw [kvGet_on_handle ops nat L h kv a hh]
  rcases habs with he | hv
  · cases hx : (nat.Get kv (LVAsString ops a) L.store).1.2 with
    | none => exact absurd hx he
    | some e => simp
  · split
    · rfl
    · rw [hv]

/-- C6: for every valid handle `h` of a collection `kv` and all strings `key`
and `value` (the non-empty ones among them), when native `Set` of the binding
succeeds and native `Get` of the key then gives the value without error,
`h:set(key, value)` returns true and the following `h:get(key)` returns
`value`. -/
theorem set_then_get_roundtrip {F σ : Type} (ops : NumberOps F) (nat : Native σ)
    (L : LState F σ) (h : LValue F) (kv : KeyValue) (key value : String)
    (hh : h.handleOf = some kv)
    (hset : (nat.Set kv key value L.store).1 = none)
    (hget : (nat.Get kv key (nat.Set kv key value L.store).2).1 = (value, none)) :
    (kvSet ops nat (L.frame [h, .string key, .string value])).values = some [.bool true] ∧
    (kvGet ops nat
      ((kvSet ops nat (L.frame [h, .string key, .string value])).state.frame
        [h, .string key])).values = some [.string value] := by
  obtain ⟨hv, hs⟩ := kvSet_on_handle ops nat L h kv (.string key) (.string value) hh
  refine ⟨?_, ?_⟩
  · rw [hv]
    simp only [LVAsString]
    rw [hset]
    rfl
  · rw [kvGet_on_handle ops nat _ h kv (.string key) hh, hs]
    simp only [LVAsString]
    rw [hget]
    rfl

/-- C6, at `set("k", "v")` then `get("k")` on the handle of `mycoll` over the
in-memory store. -/
theorem set_then_get_roundtrip_witness :
    (handle "mycoll" 5).handleOf = some mycoll ∧
    (memNative.Set mycoll "k" "v" (readyState []).store).1 = none ∧
    (memNative.Get mycoll "k" (memNative.Set mycoll "k" "v" (readyState []).store).2).1 =
      ("v", none) ∧
    (kvSet intOps memNative
      ((readyState []).frame [handle "mycoll" 5, .string "k", .string "v"])).values =
      some [.bool true] ∧
    (kvGet intOps memNative
      ((kvSet intOps memNative
        ((readyState []).frame [handle "mycoll" 5, .string "k", .string "v"])).state.frame
        [handle "mycoll" 5, .string "k"])).values = some [.string "v"] :=
  ⟨by decide, by decide, by decide,
    set_then_get_roundtrip intOps memNative (readyState []) (handle "mycoll" 5) mycoll
      "k" "v" (by decide) (by decide) (by decide)⟩

/-- C7: for every valid handle `h` of a collection `kv` and every key
argument `a`, when after native `Del` the store reports the key as absent (by
an error or by an empty value), `h:del(a)` followed by `h:get(a)` returns the
empty string; and `h:get(a)` returns the empty string in every state in which
the store reports the key as absent, as it does for a key never set. -/
theorem del_then_get_empty {F σ : Type} (ops : NumberOps F) (nat : Native σ)
    (L : LState F σ) (h : LValue F) (kv : KeyValue) (a : LValue F)
    (hh : h.handleOf = some kv)
    (hdel : reportsAbsent nat kv (LVAsString ops a)
      (nat.Del kv (LVAsString ops a) L.store).2) :
    (kvGet ops nat ((kvDel ops nat (L.frame [h, a])).state.frame [h, a])).values =
      some [.string ""] ∧
    ∀ L0 : LState F σ, reportsAbsent nat kv (LVAsString ops a) L0.store →
      (kvGet ops nat (L0.frame [h, a])).values = some [.string ""] := by
  refine ⟨?_, fun L0 h0 => get_of_reportsAbsent ops nat L0 h kv a hh h0⟩
  apply get_of_reportsAbsent ops nat _ h kv a hh
  rw [kvDel_on_handle ops nat L h kv a hh]
  exact hdel

/-- C7, at `del("k")` then `get("k")` on the handle of `mycoll`, over the
in-memory store holding the binding of "k" to "v". -/
theorem del_then_get_empty_witness :
    (handle "mycoll" 5).handleOf = some mycoll ∧
    reportsAbsent memNative mycoll (LVAsString intOps (.string "k"))
      (memNative.Del mycoll (LVAsString intOps (.string "k"))
        (kvSet intOps memNative setCall).state.store).2 ∧
    (kvGet intOps memNative ((kvSet intOps memNative setCall).state.frame
      [handle "mycoll" 5, .string "k"])).values = some [.string "v"] ∧
    (kvGet intOps memNative
      ((kvDel intOps memNative
        ((kvSet intOps memNative setCall).state.frame
          [handle "mycoll" 5, .string "k"])).state.frame
        [handle "mycoll" 5, .string "k"])).values = some [.string ""] :=
  ⟨by decide, Or.inl (by decide), by decide,
    (del_then_get_empty intOps memNative (kvSet intOps memNative setCall).state
      (handle "mycoll" 5) mycoll (.string "k") (by decide) (Or.inl (by decide))).1⟩

/-! ## C8: the handle and its payload -/

/-- C8: in a runtime in which the KEYVALUE class is registered (as
`exportKeyValue` leaves it), for every name and database index `newKeyValue`
returns a handle whose payload is the non-nil collection `(pool, id, dbindex)`
and whose metatable is that of the KEYVALUE class; `checkKeyValue` on a call
with this handle as first argument succeeds and returns that collection; and
after a call of any method of `kvMethods` the first argument is the same
handle, with the same payload. -/
theorem newKeyValue_handle {F σ : Type} (ops : NumberOps F) (nat : Native σ)
    (L : LState F σ) (pool : ConnectionPool) (id : String) (dbindex : Int)
    (hreg : L.registry.lookup lKeyValueClass ≠ none) :
    ∃ ud : LUserData,
      newKeyValue L pool id dbindex = .ok ud ∧
      ud.Value = .keyValue { pool := pool, id := id, dbindex := dbindex } ∧
      ud.Value ≠ .nil ∧
      ud.Metatable = some (.typeMeta lKeyValueClass) ∧
      (∀ (L1 : LState F σ) (rest : List (LValue F)),
        checkKeyValue (L1.frame (.userdata ud :: rest)) =
          .ok { pool := pool, id := id, dbindex := dbindex }) ∧
      (∀ (name : String) (f : GoFunc) (L1 : LState F σ) (rest : List (LValue F)),
        (name, f) ∈ kvMethods →
          (f.call ops nat (L1.frame (.userdata ud :: rest))).state.Get 1 = .userdata ud) := by
  refine ⟨{ Value := .keyValue { pool := pool, id := id, dbindex := dbindex }
            Metatable := some (.typeMeta lKeyValueClass) }, ?_, rfl, by simp, rfl, ?_, ?_⟩
  · simp only [newKeyValue, SetMetatable, LState.GetTypeMetatable]
    cases hl : L.registry.lookup lKeyValueClass with
    | none => exact absurd hl hreg
    | some t => rfl
  · intro L1 rest
    exact checkKeyValue_of_handle _ _ rfl
  · intro name f L1 rest hm
    obtain ⟨pushed, hp⟩ := dispatch_keeps_stack ops nat name f
      (L1.frame (.userdata { Value := .keyValue { pool := pool, id := id, dbindex := dbindex }
                             Metatable := some (.typeMeta lKeyValueClass) } :: rest)) hm
    simp only [LState.Get, hp]
    rfl

/-- C8, at `newKeyValue` of "mycoll" on database 5 in the runtime that
`exportKeyValue` leaves. -/
theorem newKeyValue_handle_witness :
    (readyState []).registry.lookup lKeyValueClass ≠ none ∧
    newKeyValue (readyState []) { addr := 7 } "mycoll" 5 =
      .ok { Value := .keyValue mycoll, Metatable := some (.typeMeta lKeyValueClass) } ∧
    ∃ ud : LUserData,
      newKeyValue (readyState []) { addr := 7 } "mycoll" 5 = .ok ud ∧
      ud.Value = .keyValue { pool := { addr := 7 }, id := "mycoll", dbindex := 5 } ∧
      ud.Value ≠ .nil ∧
      ud.Metatable = some (.typeMeta lKeyValueClass) ∧
      (∀ (L1 : LState Int MemStore) (rest : List (LValue Int)),
        checkKeyValue (L1.frame (.userdata ud :: rest)) =
          .ok { pool := { addr := 7 }, id := "mycoll", dbindex := 5 }) ∧
      (∀ (name : String) (f : GoFunc) (L1 : LState Int MemStore) (rest : List (LValue Int)),
        (name, f) ∈ kvMethods →
          (f.call intOps memNative (L1.frame (.userdata ud :: rest))).state.Get 1 =
            .userdata ud) :=
  ⟨exportKeyValue_registers _ _, rfl,
    newKeyValue_handle intOps memNative (readyState []) { addr := 7 } "mycoll" 5
      (exportKeyValue_registers _ _)⟩

end Algernon
